import Mathlib

/-!
Verification of the docbox serverless-lambda core: the presigned-upload
lifecycle (initiate / complete / purge-expired), its event handlers, and the
document-box scope validation, shallowly embedded from the Rust sources.

Strings are modelled as `List Char`; database and storage calls whose
implementations live in external crates are modelled as oracles supplied in an
environment record, with the control flow of the handlers themselves translated
from the source.
-/

namespace Docbox

/-! ## Document box scope validation
Embedded from `src/lambdas/http/src/models/document_box.rs`. -/

/-- The characters of `ALLOWED_CHARS` in `document_box.rs`: `':', '-', '_', '.'`. -/
def ALLOWED_CHARS : List Char := [':', '-', '_', '.']

/-- Rust `char::is_whitespace`: the Unicode `White_Space` property, written out
by code point. -/
def is_rust_whitespace (c : Char) : Bool :=
  (9 ≤ c.toNat && c.toNat ≤ 13) || c.toNat == 32 || c.toNat == 133 ||
    c.toNat == 160 || c.toNat == 5760 || (8192 ≤ c.toNat && c.toNat ≤ 8202) ||
    c.toNat == 8232 || c.toNat == 8233 || c.toNat == 8239 ||
    c.toNat == 8287 || c.toNat == 12288

/-- Rust `char::is_ascii_alphanumeric`. -/
def is_ascii_alphanumeric (c : Char) : Bool :=
  (65 ≤ c.toNat && c.toNat ≤ 90) || (97 ≤ c.toNat && c.toNat ≤ 122) ||
    (48 ≤ c.toNat && c.toNat ≤ 57)

/-- Rust `str::trim().is_empty()`: the trimmed string is empty exactly when
every character has the `White_Space` property (trim removes leading and
trailing whitespace, so only an all-whitespace string trims to empty). -/
def trim_is_empty (value : List Char) : Bool :=
  value.all is_rust_whitespace

/-- `DocumentBoxScope::validate_scope` from `document_box.rs`: reject when
`value.trim().is_empty()`, otherwise require every character to be ASCII
alphanumeric or one of `ALLOWED_CHARS`. -/
def validate_scope (value : List Char) : Bool :=
  if trim_is_empty value then
    false
  else
    value.all (fun c => is_ascii_alphanumeric c || ALLOWED_CHARS.contains c)

/-- `impl FromStr for DocumentBoxScope`: returns the scope when
`validate_scope` passes, an `InvalidDocumentBoxScope` error otherwise. -/
def DocumentBoxScope.from_str (s : List Char) : Except Unit (List Char) :=
  if !validate_scope s then .error () else .ok s

/-- `impl Deserialize for DocumentBoxScope`: deserializes the string and
rejects with a custom `InvalidDocumentBoxScope` error when `validate_scope`
fails. -/
def DocumentBoxScope.deserialize (s : List Char) : Except Unit (List Char) :=
  if !validate_scope s then .error () else .ok s

/-- `impl Validate for DocumentBoxScope` (garde): the report stays empty
exactly when `validate_scope` passes. -/
def DocumentBoxScope.garde_valid (s : List Char) : Bool :=
  validate_scope s

/-- The character set named by the claim: ASCII alphanumeric or one of
`':'`, `'-'`, `'_'`, `'.'`. -/
def claim_allowed_char (c : Char) : Bool :=
  is_ascii_alphanumeric c || ALLOWED_CHARS.contains c

theorem allowed_not_whitespace (c : Char) (h : claim_allowed_char c = true) :
    is_rust_whitespace c = false := by
  simp only [claim_allowed_char, Bool.or_eq_true] at h
  rcases h with h | h
  · simp only [is_ascii_alphanumeric, Bool.or_eq_true, Bool.and_eq_true,
      decide_eq_true_eq] at h
    cases hb : is_rust_whitespace c with
    | false => rfl
    | true =>
      exfalso
      simp only [is_rust_whitespace, Bool.or_eq_true, Bool.and_eq_true,
        decide_eq_true_eq, beq_iff_eq] at hb
      omega
  · have hc : c = ':' ∨ c = '-' ∨ c = '_' ∨ c = '.' := by
      simpa [ALLOWED_CHARS, List.contains_cons, beq_iff_eq, or_comm,
        or_assoc] using h
    rcases hc with rfl | rfl | rfl | rfl <;> decide

theorem validate_scope_iff (s : List Char) :
    validate_scope s = true ↔ s ≠ [] ∧ ∀ c ∈ s, claim_allowed_char c = true := by
  unfold validate_scope trim_is_empty
  constructor
  · intro h
    by_cases hws : s.all is_rust_whitespace = true
    · simp [hws] at h
    · simp only [hws, Bool.false_eq_true, if_false] at h
      rw [List.all_eq_true] at h
      refine ⟨?_, fun c hc => h c hc⟩
      intro hnil
      subst hnil
      simp at hws
  · rintro ⟨hnil, hall⟩
    have hws : s.all is_rust_whitespace = false := by
      cases s with
      | nil => exact absurd rfl hnil
      | cons c cs =>
        have := allowed_not_whitespace c (hall c (List.mem_cons_self c cs))
        simp [List.all_cons, this]
    simp only [hws, Bool.false_eq_true, if_false]
    rw [List.all_eq_true]
    exact fun c hc => hall c hc

/-- C10: a DocumentBoxScope string is accepted — by deserialization, by garde
validation, and by FromStr parsing alike — if and only if it is non-empty and
every one of its characters is an ASCII alphanumeric or one of `':'`, `'-'`,
`'_'`, `'.'`; any other string (including the empty or all-whitespace string)
is rejected with an invalid-scope error. -/
theorem claim_C10_scope_validation (s : List Char) :
    ((DocumentBoxScope.from_str s = .ok s ∧
      DocumentBoxScope.deserialize s = .ok s ∧
      DocumentBoxScope.garde_valid s = true) ↔
     (s ≠ [] ∧ ∀ c ∈ s, claim_allowed_char c = true)) ∧
    (¬(s ≠ [] ∧ ∀ c ∈ s, claim_allowed_char c = true) →
      DocumentBoxScope.from_str s = .error () ∧
      DocumentBoxScope.deserialize s = .error ()) := by
  have hv := validate_scope_iff s
  constructor
  · constructor
    · rintro ⟨h, -, -⟩
      rw [← hv]
      unfold DocumentBoxScope.from_str at h
      by_cases hval : validate_scope s = true
      · exact hval
      · simp [hval] at h
    · intro h
      have hval : validate_scope s = true := hv.mpr h
      refine ⟨?_, ?_, hval⟩ <;>
        simp [DocumentBoxScope.from_str, DocumentBoxScope.deserialize, hval]
  · intro h
    have hval : validate_scope s = false := by
      cases hval : validate_scope s with
      | false => rfl
      | true => exact absurd (hv.mp hval) h
    constructor <;>
      simp [DocumentBoxScope.from_str, DocumentBoxScope.deserialize, hval]

/-- Witness for C10: the concrete scope string `"user:1.files"` is accepted
and satisfies the character condition; applies `claim_C10_scope_validation`. -/
theorem claim_C10_scope_validation_witness :
    DocumentBoxScope.from_str "user:1.files".toList = .ok "user:1.files".toList ∧
    DocumentBoxScope.deserialize "user:1.files".toList = .ok "user:1.files".toList ∧
    DocumentBoxScope.garde_valid "user:1.files".toList = true :=
  (claim_C10_scope_validation "user:1.files".toList).1.mpr (by decide)

/-! ## Presigned upload data model
From the spec's data model (section 3) and `docbox_database` model types used
by the lambdas. -/

abbrev FileId := Nat
abbrev FolderId := Nat
abbrev TaskId := Nat
abbrev TenantId := Nat

/-- `PresignedTaskStatus` from `docbox_database`: `Pending`,
`Completed{file_id}`, `Failed{error}`. -/
inductive PresignedTaskStatus where
  | pending
  | completed (file_id : FileId)
  | failed (error : List Char)
deriving DecidableEq, Repr

def PresignedTaskStatus.isPending : PresignedTaskStatus → Bool
  | .pending => true
  | _ => false

/-- `PresignedUploadTask` row: id, owning scope, destination folder, storage
object key, expiry instant, and status. -/
structure PresignedUploadTask where
  id : TaskId
  document_box : List Char
  folder_id : FolderId
  file_key : List Char
  expires_at : Nat
  status : PresignedTaskStatus
deriving DecidableEq, Repr

/-- A `File` row created by a successful completion; it keeps the 1:1 link
back to the task that produced it. -/
structure StoredFile where
  id : FileId
  task_id : TaskId
deriving DecidableEq, Repr

/-- The durable per-tenant state the lifecycle operations read and write: the
task table, the file table, the folder table (scope, folder id), and the set
of object keys present in the tenant bucket. -/
structure TenantState where
  tasks : List PresignedUploadTask
  files : List StoredFile
  folders : List (List Char × FolderId)
  storage_objects : List (List Char)
deriving DecidableEq, Repr

/-- A Tenant Directory row: identity plus the bucket name used by the
Bucket Router. -/
structure Tenant where
  id : TenantId
  env : List Char
  bucket : List Char
deriving DecidableEq, Repr

/-- Modelled from the spec: `Tenant::find_by_bucket` lives in
`docbox_database`, not under `src/`; spec section 4.5: `find_tenant_by_bucket
(root_db, bucket_name) -> Tenant | NotFound` over the Tenant Directory rows. -/
def Tenant.find_by_bucket (tenants : List Tenant) (bucket : List Char) :
    Option Tenant :=
  tenants.find? (fun t => t.bucket == bucket)

/-- Modelled from the spec: `PresignedUploadTask::find_by_file_key` lives in
`docbox_database`, not under `src/`; spec: "Look up a task by `object_key`
restricted to `Pending` status". -/
def find_by_file_key (tasks : List PresignedUploadTask) (key : List Char) :
    Option PresignedUploadTask :=
  tasks.find? (fun t => t.file_key == key && t.status.isPending)

/-! ## Completion handler
Embedded from `src/lambdas/upload-completion/src/event_handler.rs`. External
calls (database pools, the url decoder, the File Processing Pipeline) are
oracles in `CompletionEnv`; the handler also emits a trace of the external
actions it performs, in order. -/

/-- Oracles for the completion handler's external calls. `decode` is the
`urlencoding::decode` crate call (an external collaborator), `pipeline` the
File Processing Pipeline; the `_ok` flags give the outcomes of pool
acquisition and of the fallible database queries. -/
structure CompletionEnv where
  root_pool_ok : Bool
  tenants : List Tenant
  bucket_query_ok : Bool
  decode : List Char → Option (List Char)
  tenant_pool_ok : Bool
  task_query_ok : Bool
  folder_query_ok : Bool
  pipeline : PresignedUploadTask → Except (List Char) FileId

/-- The external actions the completion handler performs, in order. -/
inductive CAction where
  | get_root_pool
  | tenant_lookup (bucket : List Char)
  | decode_key (raw : List Char)
  | get_tenant_pool
  | task_lookup (key : List Char)
  | folder_lookup (scope : List Char) (folder : FolderId)
  | run_pipeline (task : TaskId)
deriving DecidableEq, Repr

/-- Status update used by completion: set the status of the task row with the
given id. -/
def set_task_status (tasks : List PresignedUploadTask) (tid : TaskId)
    (st : PresignedTaskStatus) : List PresignedUploadTask :=
  tasks.map (fun t => if t.id == tid then { t with status := st } else t)

/-- Modelled from the spec: `safe_complete_presigned` lives in `docbox_core`,
not under `src/`; spec `complete()` steps 5-7: run the File Processing
Pipeline; on success create the `File` entity and transition the task to
`Completed{file_id}`; on failure transition the task to `Failed{error}` (the
uploaded object is left in place). -/
def safe_complete_presigned (env : CompletionEnv) (s : TenantState)
    (task : PresignedUploadTask) : TenantState :=
  match env.pipeline task with
  | .ok fid =>
    { s with
      tasks := set_task_status s.tasks task.id (.completed fid)
      files := ⟨fid, task.id⟩ :: s.files }
  | .error e =>
    { s with tasks := set_task_status s.tasks task.id (.failed e) }

/-- `handle_file_uploaded_tenant` from the completion lambda: decode the
object key, get the tenant pool, look up a `Pending` task by the decoded key,
re-load the destination folder, then run `safe_complete_presigned`; every
failure or miss logs and returns without mutating. -/
def handle_file_uploaded_tenant (env : CompletionEnv) (_tenant : Tenant)
    (s : TenantState) (object_key : List Char) :
    TenantState × List CAction :=
  match env.decode object_key with
  | none => (s, [.decode_key object_key])
  | some decoded =>
    if !env.tenant_pool_ok then
      (s, [.decode_key object_key, .get_tenant_pool])
    else if !env.task_query_ok then
      (s, [.decode_key object_key, .get_tenant_pool, .task_lookup decoded])
    else
      match find_by_file_key s.tasks decoded with
      | none =>
        (s, [.decode_key object_key, .get_tenant_pool, .task_lookup decoded])
      | some task =>
        let base : List CAction :=
          [.decode_key object_key, .get_tenant_pool, .task_lookup decoded,
           .folder_lookup task.document_box task.folder_id]
        if !env.folder_query_ok then
          (s, base)
        else if !(s.folders.contains (task.document_box, task.folder_id)) then
          (s, base)
        else
          (safe_complete_presigned env s task,
           base ++ [.run_pipeline task.id])

/-- `handle_file_uploaded` from the completion lambda: acquire the root pool,
resolve the tenant from the bucket name via `Tenant::find_by_bucket`, then run
the tenant-scoped handler; an unmatched bucket or any failure logs and
returns. -/
def handle_file_uploaded (env : CompletionEnv) (s : TenantState)
    (bucket_name object_key : List Char) : TenantState × List CAction :=
  if !env.root_pool_ok then
    (s, [.get_root_pool])
  else if !env.bucket_query_ok then
    (s, [.get_root_pool, .tenant_lookup bucket_name])
  else
    match Tenant.find_by_bucket env.tenants bucket_name with
    | none => (s, [.get_root_pool, .tenant_lookup bucket_name])
    | some tenant =>
      let r := handle_file_uploaded_tenant env tenant s object_key
      (r.1, .get_root_pool :: .tenant_lookup bucket_name :: r.2)

/-- One record of an S3 object-created event: the lambda reads only the
optional bucket name and object key. -/
structure S3Record where
  bucket_name : Option (List Char)
  object_key : Option (List Char)
deriving DecidableEq, Repr

/-- An S3 object-created event: a list of records. -/
structure S3Event where
  records : List S3Record
deriving DecidableEq, Repr

/-- `get_object_parts` from the completion lambda: the first record's bucket
name and object key, or `None` when the event has no records or the first
record lacks either field. -/
def get_object_parts (payload : S3Event) : Option (List Char × List Char) := do
  let record ← payload.records.head?
  let bucket_name ← record.bucket_name
  let object_key ← record.object_key
  pure (bucket_name, object_key)

/-- `function_handler` from the completion lambda: extract bucket and key (or
return `Ok(())` immediately), run `handle_file_uploaded`, and return
`Ok(())`. -/
def function_handler (env : CompletionEnv) (s : TenantState) (event : S3Event) :
    (TenantState × List CAction) × Except (List Char) Unit :=
  match get_object_parts event with
  | none => ((s, []), .ok ())
  | some (b, k) => (handle_file_uploaded env s b k, .ok ())

/-! ## Cleanup sweep
Embedded from `src/lambdas/presigned-cleanup/src/event_handler.rs`. -/

/-- Modelled from the spec: `PresignedUploadTask::find_expired` lives in
`docbox_database`, not under `src/`; spec: "Finds all tasks whose validity
window has elapsed as of `now`, regardless of status", and section 8:
"`purge_expired(now=T)` deletes all and only tasks whose expiry < T". -/
def find_expired (tasks : List PresignedUploadTask) (now : Nat) :
    List PresignedUploadTask :=
  tasks.filter (fun t => t.expires_at < now)

/-- The external actions one tenant's purge performs, in order, with each
call's outcome. -/
inductive PAction where
  | delete_row (id : TaskId) (ok : Bool)
  | delete_object (key : List Char) (ok : Bool)
deriving DecidableEq, Repr

/-- Oracles for one tenant's purge: the outcome of the `find_expired` query,
of each row deletion, and of each storage-object deletion. -/
structure PurgeEnv where
  find_expired_ok : Bool
  delete_row_ok : TaskId → Bool
  delete_object_ok : List Char → Bool

/-- The body of the `for task in tasks` loop in
`purge_expired_presigned_tasks_tenant`: delete the task row (logging a
failure), then for a `Pending` or `Failed` task also delete the storage
object (logging a failure); a `Completed` task's object is left alone. -/
def purge_task_step (env : PurgeEnv) (s : TenantState)
    (task : PresignedUploadTask) : TenantState × List PAction :=
  let rok := env.delete_row_ok task.id
  let s1 :=
    if rok then { s with tasks := s.tasks.filter (fun t => !(t.id == task.id)) }
    else s
  match task.status with
  | .completed _ => (s1, [.delete_row task.id rok])
  | .pending | .failed _ =>
    let ook := env.delete_object_ok task.file_key
    let s2 :=
      if ook then
        { s1 with
          storage_objects :=
            s1.storage_objects.filter (fun k => !(k == task.file_key)) }
      else s1
    (s2, [.delete_row task.id rok, .delete_object task.file_key ook])

/-- The `for task in tasks` loop of `purge_expired_presigned_tasks_tenant`:
every listed task is processed; no outcome stops the loop. -/
def purge_task_loop (env : PurgeEnv) (tasks : List PresignedUploadTask)
    (s : TenantState) : TenantState × List PAction :=
  match tasks with
  | [] => (s, [])
  | task :: rest =>
    let r1 := purge_task_step env s task
    let r2 := purge_task_loop env rest r1.1
    (r2.1, r1.2 ++ r2.2)

/-- `purge_expired_presigned_tasks_tenant` from the cleanup lambda: query the
expired tasks as of now (propagating a query failure as a `DbResult` error),
return early when none, otherwise run the deletion loop. -/
def purge_expired_presigned_tasks_tenant (env : PurgeEnv) (now : Nat)
    (s : TenantState) : (TenantState × List PAction) × Except Unit Unit :=
  if !env.find_expired_ok then
    ((s, []), .error ())
  else
    let tasks := find_expired s.tasks now
    if tasks.isEmpty then ((s, []), .ok ())
    else (purge_task_loop env tasks s, .ok ())

/-- The sweep-level external actions, in order. -/
inductive SAction where
  | get_root_pool
  | query_tenants
  | get_tenant_pool (id : TenantId)
  | purge_tenant (id : TenantId)
deriving DecidableEq, Repr

/-- `PurgeExpiredPresignedError` from the cleanup lambda. -/
inductive PurgeExpiredPresignedError where
  | connectDatabase
  | queryTenants
deriving DecidableEq, Repr

/-- Oracles for the sweep: root pool and tenant-listing outcomes, each
tenant's pool-acquisition outcome, each tenant's durable state and purge
oracles, and the current time. -/
structure SweepEnv where
  root_pool_ok : Bool
  tenants_query : Except Unit (List Tenant)
  tenant_pool_ok : TenantId → Bool
  tenant_state : TenantId → TenantState
  purge_env : TenantId → PurgeEnv
  now : Nat

/-- The `for tenant in tenants` loop of `purge_expired_presigned_tasks`: a
tenant pool failure is mapped to `ConnectDatabase` and propagated with `?`,
ending the loop; a per-tenant purge failure is logged and the loop
continues. -/
def purge_tenants_loop (env : SweepEnv) (tenants : List Tenant) :
    List SAction × Except PurgeExpiredPresignedError Unit :=
  match tenants with
  | [] => ([], .ok ())
  | t :: rest =>
    if !env.tenant_pool_ok t.id then
      ([.get_tenant_pool t.id], .error .connectDatabase)
    else
      let _purge :=
        purge_expired_presigned_tasks_tenant (env.purge_env t.id) env.now
          (env.tenant_state t.id)
      let r := purge_tenants_loop env rest
      (.get_tenant_pool t.id :: .purge_tenant t.id :: r.1, r.2)

/-- `purge_expired_presigned_tasks` from the cleanup lambda: acquire the root
pool, list all tenants (each failure mapped and propagated), then iterate the
tenants. -/
def purge_expired_presigned_tasks (env : SweepEnv) :
    List SAction × Except PurgeExpiredPresignedError Unit :=
  if !env.root_pool_ok then
    ([.get_root_pool], .error .connectDatabase)
  else
    match env.tenants_query with
    | .error _ => ([.get_root_pool, .query_tenants], .error .queryTenants)
    | .ok tenants =>
      let r := purge_tenants_loop env tenants
      (.get_root_pool :: .query_tenants :: r.1, r.2)

/-- `function_handler` from the cleanup lambda: run the purge, log any error,
and return `Ok(())`. -/
def cleanup_function_handler (env : SweepEnv) :
    List SAction × Except (List Char) Unit :=
  let r := purge_expired_presigned_tasks env
  (r.1, .ok ())

/-! ## HTTP file routes
Embedded from `src/lambdas/http/src/routes/file.rs`,
`src/lambdas/http/src/models/file.rs` and `src/lambdas/http/src/error.rs`. -/

/-- `HttpFileError` from `models/file.rs`. -/
inductive HttpFileError where
  | unknownFile
  | unknownTask
  | fileTooLarge (requested maximum : Int)
  | noMatchingGenerated
  | unsupportedFileType
deriving DecidableEq, Repr

/-- `impl HttpError for HttpFileError` from `models/file.rs`: the HTTP status
code of each error. -/
def HttpFileError.status : HttpFileError → Nat
  | .fileTooLarge _ _ => 400
  | .unknownFile | .noMatchingGenerated | .unknownTask => 404
  | .unsupportedFileType => 400

/-- The `DynHttpError` values the two embedded routes can produce:
`HttpCommonError::ServerError`, an `HttpFileError`, or
`HttpFolderError::UnknownTargetFolder`. -/
inductive DynHttpError where
  | serverError
  | file (e : HttpFileError)
  | unknownTargetFolder
deriving DecidableEq, Repr

/-- The status codes of the embedded `DynHttpError` values, from the
`HttpError` impls in `error.rs`, `models/file.rs` and `models/folder.rs`. -/
def DynHttpError.status : DynHttpError → Nat
  | .serverError => 500
  | .file e => e.status
  | .unknownTargetFolder => 404

/-- A `FileWithExtra` row from `docbox_database`, kept to its identity. -/
structure FileWithExtra where
  id : FileId
  name : List Char
deriving DecidableEq, Repr

/-- A `GeneratedFile` row from `docbox_database`. -/
structure GeneratedFile where
  file_id : FileId
  gen_type : List Char
deriving DecidableEq, Repr

/-- `PresignedStatusResponse` from `models/file.rs`. -/
inductive PresignedStatusResponse where
  | pending
  | complete (file : FileWithExtra) (generated : List GeneratedFile)
  | failed (error : List Char)
deriving DecidableEq, Repr

/-- Oracles for the database calls of the `get_presigned` route. -/
structure StatusRouteEnv where
  find_task : List Char → TaskId → Except Unit (Option PresignedUploadTask)
  find_file_with_extra :
    List Char → FileId → Except Unit (Option FileWithExtra)
  find_generated : FileId → Except Unit (List GeneratedFile)

/-- `get_presigned` from `routes/file.rs`: find the task (`UnknownTask` when
absent), answer `Pending` or `Failed{error}` directly from the status, and for
`Completed{file_id}` load the file with that id and all its generated files
into a `Complete` response. -/
def get_presigned (env : StatusRouteEnv) (scope : List Char) (task_id : TaskId) :
    Except DynHttpError PresignedStatusResponse :=
  match env.find_task scope task_id with
  | .error _ => .error .serverError
  | .ok none => .error (.file .unknownTask)
  | .ok (some task) =>
    match task.status with
    | .pending => .ok .pending
    | .failed e => .ok (.failed e)
    | .completed fid =>
      match env.find_file_with_extra scope fid with
      | .error _ => .error .serverError
      | .ok none => .error (.file .unknownFile)
      | .ok (some file) =>
        match env.find_generated fid with
        | .error _ => .error .serverError
        | .ok gens => .ok (.complete file gens)

/-- `CreatePresignedRequest` from `models/file.rs` (the fields the route
reads). -/
structure CreatePresignedRequest where
  name : List Char
  folder_id : FolderId
  size : Int
  mime : List Char
  parent_id : Option FileId
  disable_mime_sniffing : Option Bool
deriving DecidableEq, Repr

/-- A `Folder` row, kept to its identity. -/
structure Folder where
  id : FolderId
deriving DecidableEq, Repr

/-- `PresignedUploadResponse` from `models/file.rs`. -/
structure PresignedUploadResponse where
  task_id : TaskId
  method : List Char
  uri : List Char
deriving DecidableEq, Repr

/-- The external actions the `create_presigned` route performs, in order.
`create_upload_and_sign` is the `create_presigned_upload` call in
`docbox_core`, which persists the `Pending` task row and signs the write
request. -/
inductive FAction where
  | folder_lookup (scope : List Char) (folder : FolderId)
  | store_user
  | create_upload_and_sign (folder : FolderId)
deriving DecidableEq, Repr

/-- Oracles for the external calls of the `create_presigned` route.
`store_user` can only fail with `ServerError` (see
`middleware/action_user.rs`); `guess_mime` is the `mime_guess` crate;
`create_presigned_upload` is the `docbox_core` call whose failure the route
maps to `ServerError`. -/
structure CreateRouteEnv where
  find_folder : List Char → FolderId → Except Unit (Option Folder)
  store_user : Except Unit (Option Nat)
  guess_mime : List Char → Option (List Char)
  create_presigned_upload : List Char → Except Unit PresignedUploadResponse

/-- `create_presigned` from `routes/file.rs`: reject with
`FileTooLarge(size, max)` when the declared size exceeds the configured
maximum; otherwise look up the destination folder, store the acting user,
sniff the mime type when it is `application/octet-stream`, and create the
presigned upload (persisting the task and signing). On success the route
answers `201 Created`. -/
def create_presigned (env : CreateRouteEnv) (max_file_size : Int)
    (scope : List Char) (req : CreatePresignedRequest) :
    Except DynHttpError (Nat × PresignedUploadResponse) × List FAction :=
  if req.size > max_file_size then
    (.error (.file (.fileTooLarge req.size max_file_size)), [])
  else
    match env.find_folder scope req.folder_id with
    | .error _ => (.error .serverError, [.folder_lookup scope req.folder_id])
    | .ok none =>
      (.error .unknownTargetFolder, [.folder_lookup scope req.folder_id])
    | .ok (some folder) =>
      match env.store_user with
      | .error _ =>
        (.error .serverError, [.folder_lookup scope req.folder_id, .store_user])
      | .ok _created_by =>
        let mime :=
          if req.mime == "application/octet-stream".toList
              && !(req.disable_mime_sniffing.getD false) then
            match env.guess_mime req.name with
            | some guessed => guessed
            | none => req.mime
          else req.mime
        let trace : List FAction :=
          [.folder_lookup scope req.folder_id, .store_user,
           .create_upload_and_sign folder.id]
        match env.create_presigned_upload mime with
        | .error _ => (.error .serverError, trace)
        | .ok resp => (.ok (201, resp), trace)

/-! ## Concrete fixtures used by witnesses and counterexamples -/

def testTenant : Tenant := ⟨1, "env".toList, "bucket".toList⟩

def testTenant2 : Tenant := ⟨2, "env".toList, "bucket2".toList⟩

def testTask : PresignedUploadTask :=
  ⟨1, "scope".toList, 7, "abc/123".toList, 100, .pending⟩

def testState : TenantState :=
  { tasks := [testTask]
    files := []
    folders := [("scope".toList, 7)]
    storage_objects := ["abc/123".toList] }

def testCompletionEnv : CompletionEnv :=
  { root_pool_ok := true
    tenants := [testTenant]
    bucket_query_ok := true
    decode := fun key => some key
    tenant_pool_ok := true
    task_query_ok := true
    folder_query_ok := true
    pipeline := fun _ => .ok 42 }

def testPurgeEnv : PurgeEnv :=
  ⟨true, fun _ => true, fun _ => true⟩

def testSweepEnv : SweepEnv :=
  { root_pool_ok := true
    tenants_query := .ok [testTenant]
    tenant_pool_ok := fun _ => true
    tenant_state := fun _ => testState
    purge_env := fun _ => testPurgeEnv
    now := 200 }

/-! ## C9: only the first record of an event is processed -/

/-- C9: for every storage object-created event, the completion handler
processes at most the first record: records after the first are ignored, and
an event with no records, or whose first record lacks a bucket name or object
key, is skipped entirely with a success result. -/
theorem claim_C9_first_record_only (env : CompletionEnv) (s : TenantState)
    (r : S3Record) (rest : List S3Record) :
    function_handler env s ⟨r :: rest⟩ = function_handler env s ⟨[r]⟩ ∧
    function_handler env s ⟨[]⟩ = ((s, []), .ok ()) ∧
    ((r.bucket_name = none ∨ r.object_key = none) →
      function_handler env s ⟨r :: rest⟩ = ((s, []), .ok ())) := by
  refine ⟨rfl, rfl, ?_⟩
  intro h
  rcases h with h | h
  · simp [function_handler, get_object_parts, h, Option.bind]
  · cases hb : r.bucket_name <;>
      simp [function_handler, get_object_parts, h, hb, Option.bind]

/-- Witness for C9: a concrete two-record event whose first record lacks a
bucket name is skipped with success; applies `claim_C9_first_record_only`. -/
theorem claim_C9_first_record_only_witness :
    function_handler testCompletionEnv testState
        ⟨[⟨none, some "abc/123".toList⟩,
          ⟨some "bucket".toList, some "abc/123".toList⟩]⟩ =
      ((testState, []), .ok ()) :=
  (claim_C9_first_record_only testCompletionEnv testState
    ⟨none, some "abc/123".toList⟩
    [⟨some "bucket".toList, some "abc/123".toList⟩]).2.2 (Or.inl rfl)

/-! ## C4: background handlers never fail to their runtime -/

/-- C4: for every inbound event, the completion handler and the scheduled
sweep handler return success to their invoking runtime regardless of any
internal failure: failures are only logged, and an object-created
notification whose bucket matches no tenant performs no mutation. -/
theorem claim_C4_handlers_never_fail (env : CompletionEnv) (s : TenantState)
    (event : S3Event) (senv : SweepEnv) (b k : List Char) :
    (function_handler env s event).2 = .ok () ∧
    (cleanup_function_handler senv).2 = .ok () ∧
    (Tenant.find_by_bucket env.tenants b = none →
      (handle_file_uploaded env s b k).1 = s) := by
  refine ⟨?_, rfl, ?_⟩
  · unfold function_handler
    cases get_object_parts event with
    | none => rfl
    | some p => rfl
  · intro h
    unfold handle_file_uploaded
    cases hroot : env.root_pool_ok with
    | false => simp
    | true =>
      cases hq : env.bucket_query_ok with
      | false => simp
      | true => simp [h]

/-- Witness for C4: concrete handlers on concrete events return success, and
an unmatched bucket leaves the state unchanged; applies
`claim_C4_handlers_never_fail`. -/
theorem claim_C4_handlers_never_fail_witness :
    (function_handler testCompletionEnv testState
        ⟨[⟨some "bucket".toList, some "abc/123".toList⟩]⟩).2 = .ok () ∧
    (handle_file_uploaded testCompletionEnv testState "other".toList
        "abc/123".toList).1 = testState := by
  have h := claim_C4_handlers_never_fail testCompletionEnv testState
    ⟨[⟨some "bucket".toList, some "abc/123".toList⟩]⟩ testSweepEnv
    "other".toList "abc/123".toList
  exact ⟨h.1, h.2.2 (by decide)⟩

/-! ## C6: the initiation size check -/

def testCreateEnv : CreateRouteEnv :=
  { find_folder := fun _ _ => .ok (some ⟨7⟩)
    store_user := .ok none
    guess_mime := fun _ => none
    create_presigned_upload := fun _ => .ok ⟨1, "PUT".toList, "uri".toList⟩ }

def testCreateReq : CreatePresignedRequest :=
  ⟨"a.txt".toList, 7, 500, "text/plain".toList, none, none⟩

/-- C6: the presigned upload initiation endpoint rejects with a size-exceeded
error if and only if the declared size is strictly greater than the configured
maximum (so a size equal to the maximum passes); the rejection is a client
error (HTTP 400) carrying the requested and maximum sizes, and in that case no
folder lookup, no task creation, and no signing takes place (the trace is
empty). -/
theorem claim_C6_size_check (env : CreateRouteEnv) (max_file_size : Int)
    (scope : List Char) (req : CreatePresignedRequest) :
    ((create_presigned env max_file_size scope req).1 =
        .error (.file (.fileTooLarge req.size max_file_size)) ↔
      max_file_size < req.size) ∧
    (max_file_size < req.size →
      (create_presigned env max_file_size scope req).2 = []) ∧
    (DynHttpError.file (.fileTooLarge req.size max_file_size)).status = 400 := by
  unfold create_presigned
  by_cases h : req.size > max_file_size
  · simp [h, DynHttpError.status, HttpFileError.status]
  · have h' : ¬ max_file_size < req.size := h
    refine ⟨?_, fun hc => absurd hc h', rfl⟩
    simp only [if_neg h]
    constructor
    · intro hres
      exfalso
      set m := (if req.mime == "application/octet-stream".toList
            && !(req.disable_mime_sniffing.getD false) then
          match env.guess_mime req.name with
          | some guessed => guessed
          | none => req.mime
        else req.mime) with hm
      rcases hf : env.find_folder scope req.folder_id with e | of
      · rw [hf] at hres; simp at hres
      · rcases of with _ | folder
        · rw [hf] at hres; simp at hres
        · rcases hu : env.store_user with e | u
          · rw [hf, hu] at hres; simp at hres
          · rcases hcu : env.create_presigned_upload m with e | resp
            · rw [hf, hu, hcu] at hres; simp at hres
            · rw [hf, hu, hcu] at hres; simp at hres
    · intro hc
      exact absurd hc h'

/-- Witness for C6: a concrete request of size 500 against a maximum of 400 is
rejected with `FileTooLarge(500, 400)` and performs no external action;
applies `claim_C6_size_check`. -/
theorem claim_C6_size_check_witness :
    (create_presigned testCreateEnv 400 "scope".toList testCreateReq).1 =
      .error (.file (.fileTooLarge 500 400)) ∧
    (create_presigned testCreateEnv 400 "scope".toList testCreateReq).2 = [] := by
  have h := claim_C6_size_check testCreateEnv 400 "scope".toList testCreateReq
  exact ⟨h.1.mpr (by decide), h.2.1 (by decide)⟩

/-! ## C7: the upload status poll -/

def testStatusEnv : StatusRouteEnv :=
  { find_task := fun _ _ => .ok (some { testTask with status := .completed 42 })
    find_file_with_extra := fun _ _ => .ok (some ⟨42, "a.txt".toList⟩)
    find_generated := fun _ => .ok [⟨42, "pdf".toList⟩] }

/-- C7: the upload status poll's response is determined by the stored task
status: an unknown task id yields a not-found client error (404); a `Pending`
task yields `Pending`; a `Failed{error}` task yields `Failed` with the same
error string; a `Completed{file_id}` task — whose file with that id exists,
per the invariant that a completed task has exactly one file — yields
`Complete` carrying that file and all of its generated files. -/
theorem claim_C7_status_poll (env : StatusRouteEnv) (scope : List Char)
    (tid : TaskId) (task : PresignedUploadTask) (f : FileWithExtra)
    (gens : List GeneratedFile) :
    (env.find_task scope tid = .ok none →
      get_presigned env scope tid = .error (.file .unknownTask) ∧
      (DynHttpError.file .unknownTask).status = 404) ∧
    (env.find_task scope tid = .ok (some task) →
      (task.status = .pending → get_presigned env scope tid = .ok .pending) ∧
      (∀ e, task.status = .failed e →
        get_presigned env scope tid = .ok (.failed e)) ∧
      (∀ fid, task.status = .completed fid → f.id = fid →
        env.find_file_with_extra scope fid = .ok (some f) →
        env.find_generated fid = .ok gens →
        get_presigned env scope tid = .ok (.complete f gens))) := by
  constructor
  · intro h
    exact ⟨by simp [get_presigned, h], rfl⟩
  · intro h
    refine ⟨?_, ?_, ?_⟩
    · intro hp
      simp [get_presigned, h, hp]
    · intro e he
      simp [get_presigned, h, he]
    · intro fid hc _hf hfile hgens
      simp [get_presigned, h, hc, hfile, hgens]

/-- Witness for C7: a concrete completed task yields a `Complete` response
carrying the file with the stored id and its generated files; applies
`claim_C7_status_poll`. -/
theorem claim_C7_status_poll_witness :
    get_presigned testStatusEnv "scope".toList 1 =
      .ok (.complete ⟨42, "a.txt".toList⟩ [⟨42, "pdf".toList⟩]) :=
  ((claim_C7_status_poll testStatusEnv "scope".toList 1
      { testTask with status := .completed 42 } ⟨42, "a.txt".toList⟩
      [⟨42, "pdf".toList⟩]).2 rfl).2.2 42 rfl rfl rfl rfl

/-! ## C5: order of decoding and tenant resolution
The source resolves the tenant first (`handle_file_uploaded`) and decodes the
object key only inside `handle_file_uploaded_tenant`, so the spec's order is
refuted. -/

def testC5Env : CompletionEnv :=
  { testCompletionEnv with decode := fun _ => none }

/-- Counterexample to C5: on a concrete notification whose object key fails
to decode, the handler still performs a tenant lookup, and that lookup comes
before the decode attempt in the action trace — refuting "a notification
whose object key fails to decode causes no tenant lookup" and the claimed
decode-then-resolve order. -/
theorem claim_C5_counterexample :
    testC5Env.decode "k".toList = none ∧
    (handle_file_uploaded testC5Env testState "bucket".toList "k".toList).2 =
      [.get_root_pool, .tenant_lookup "bucket".toList, .decode_key "k".toList] :=
  ⟨rfl, rfl⟩

/-- C5 as amended: `complete()` resolves the tenant from the bucket name via
the Bucket Router first, and decodes the possibly URL-encoded object key only
afterwards, inside the tenant-scoped handler; a notification whose object key
fails to decode therefore still causes a tenant lookup, but no tenant-pool
acquisition, task lookup, or further processing, and no mutation. -/
theorem claim_C5_resolve_before_decode (env : CompletionEnv) (s : TenantState)
    (b k : List Char) (t : Tenant)
    (h1 : env.root_pool_ok = true) (h2 : env.bucket_query_ok = true)
    (h3 : Tenant.find_by_bucket env.tenants b = some t)
    (h4 : env.decode k = none) :
    handle_file_uploaded env s b k =
      (s, [.get_root_pool, .tenant_lookup b, .decode_key k]) := by
  simp [handle_file_uploaded, h1, h2, h3, handle_file_uploaded_tenant, h4]

/-- Witness for the amended C5 at a concrete failing decode; applies
`claim_C5_resolve_before_decode`. -/
theorem claim_C5_resolve_before_decode_witness :
    handle_file_uploaded testC5Env testState "bucket".toList "k".toList =
      (testState,
       [.get_root_pool, .tenant_lookup "bucket".toList, .decode_key "k".toList]) :=
  claim_C5_resolve_before_decode testC5Env testState "bucket".toList "k".toList
    testTenant rfl rfl rfl rfl

/-! ## C3: one tenant's failure and the rest of the sweep
The per-tenant purge failure is logged and the loop continues, but a failure
to obtain a tenant's database pool is propagated with `?` and ends the loop,
so the claim as stated is refuted. -/

def testC3SweepEnv : SweepEnv :=
  { root_pool_ok := true
    tenants_query := .ok [testTenant, testTenant2]
    tenant_pool_ok := fun tid => !(tid == 1)
    tenant_state := fun _ => testState
    purge_env := fun _ => testPurgeEnv
    now := 200 }

/-- Counterexample to C3: with two tenants in the directory and a pool
failure for the first, the sweep stops at the first tenant — the second
tenant's pool is never acquired and its purge never attempted, refuting "a
failure to obtain that tenant's database connection pool never halts
processing of the remaining tenants". -/
theorem claim_C3_counterexample :
    testC3SweepEnv.tenants_query = .ok [testTenant, testTenant2] ∧
    testC3SweepEnv.tenant_pool_ok testTenant.id = false ∧
    (purge_expired_presigned_tasks testC3SweepEnv).1 =
      [.get_root_pool, .query_tenants, .get_tenant_pool 1] ∧
    SAction.get_tenant_pool testTenant2.id ∉
      (purge_expired_presigned_tasks testC3SweepEnv).1 ∧
    SAction.purge_tenant testTenant2.id ∉
      (purge_expired_presigned_tasks testC3SweepEnv).1 := by
  refine ⟨rfl, rfl, rfl, ?_, ?_⟩ <;> decide

/-- Helper for the amended C3: when every listed tenant's pool acquisition
succeeds, the tenant loop attempts the purge of every listed tenant,
whatever each per-tenant purge returns. -/
theorem purge_tenants_loop_attempts (env : SweepEnv) (tenants : List Tenant)
    (hpool : ∀ t ∈ tenants, env.tenant_pool_ok t.id = true) :
    ∀ t ∈ tenants, SAction.purge_tenant t.id ∈ (purge_tenants_loop env tenants).1 := by
  induction tenants with
  | nil => intro t ht; cases ht
  | cons x rest ih =>
    intro t ht
    have hx : env.tenant_pool_ok x.id = true :=
      hpool x (List.mem_cons_self x rest)
    rcases List.mem_cons.mp ht with rfl | hmem
    · simp [purge_tenants_loop, hx]
    · have := ih (fun u hu => hpool u (List.mem_cons_of_mem x hu)) t hmem
      simp [purge_tenants_loop, hx, this]

/-- C3 as amended: a failure of the per-tenant purge itself is logged and
does not halt the remaining tenants — when every tenant's pool acquisition
succeeds, every tenant in the directory is attempted regardless of per-tenant
purge outcomes — but a failure to obtain one tenant's database connection
pool is propagated and aborts the sweep there, leaving the remaining tenants
unattempted. -/
theorem claim_C3_pool_failure_halts (env : SweepEnv) (tenants : List Tenant)
    (hroot : env.root_pool_ok = true)
    (hq : env.tenants_query = .ok tenants) :
    ((∀ t ∈ tenants, env.tenant_pool_ok t.id = true) →
      ∀ t ∈ tenants,
        SAction.purge_tenant t.id ∈ (purge_expired_presigned_tasks env).1) ∧
    (∀ t rest, tenants = t :: rest → env.tenant_pool_ok t.id = false →
      (purge_expired_presigned_tasks env).1 =
        [.get_root_pool, .query_tenants, .get_tenant_pool t.id] ∧
      (purge_expired_presigned_tasks env).2 = .error .connectDatabase) := by
  constructor
  · intro hpool t ht
    have := purge_tenants_loop_attempts env tenants hpool t ht
    simp [purge_expired_presigned_tasks, hroot, hq, this]
  · rintro t rest rfl hfail
    constructor <;> simp [purge_expired_presigned_tasks, purge_tenants_loop,
      hroot, hq, hfail]

/-- Witness for the amended C3: a concrete sweep in which the first tenant's
purge fails (its expiry query errors) still attempts the second tenant;
applies `claim_C3_pool_failure_halts`. -/
theorem claim_C3_pool_failure_halts_witness :
    SAction.purge_tenant testTenant2.id ∈
      (purge_expired_presigned_tasks
        { testSweepEnv with
          tenants_query := .ok [testTenant, testTenant2]
          purge_env := fun tid =>
            if tid == 1 then ⟨false, fun _ => true, fun _ => true⟩
            else testPurgeEnv }).1 :=
  (claim_C3_pool_failure_halts _ [testTenant, testTenant2] rfl rfl).1
    (by decide) testTenant2 (by decide)

/-! ## C2: per-task purge behaviour -/

/-- The spec's per-task purge actions (section 4.4, `purge_expired`), stated
from the spec's words for comparison with the embedded loop: delete the task
row regardless of status; for a `Pending` or `Failed` task additionally
attempt the storage-object deletion; never storage-clean a `Completed` task;
continue past any individual failure. -/
def purge_trace_spec (env : PurgeEnv) : List PresignedUploadTask → List PAction
  | [] => []
  | t :: rest =>
    (match t.status with
     | .completed _ => [.delete_row t.id (env.delete_row_ok t.id)]
     | .pending | .failed _ =>
       [.delete_row t.id (env.delete_row_ok t.id),
        .delete_object t.file_key (env.delete_object_ok t.file_key)])
      ++ purge_trace_spec env rest

/-- The embedded deletion loop emits exactly the spec's per-task actions, for
every listed task, independent of any deletion outcome. -/
theorem purge_task_loop_trace (env : PurgeEnv)
    (tasks : List PresignedUploadTask) (s : TenantState) :
    (purge_task_loop env tasks s).2 = purge_trace_spec env tasks := by
  induction tasks generalizing s with
  | nil => rfl
  | cons t rest ih =>
    unfold purge_task_loop purge_trace_spec
    cases hst : t.status <;> simp [purge_task_step, hst, ih]

/-- The task table after one purge step: the step filters out the purged id
when the row deletion succeeded, and leaves the table unchanged otherwise. -/
theorem purge_task_step_tasks (env : PurgeEnv) (s : TenantState)
    (u : PresignedUploadTask) :
    ((purge_task_step env s u).1).tasks =
      (if env.delete_row_ok u.id then
        s.tasks.filter (fun t => !(t.id == u.id))
      else s.tasks) := by
  unfold purge_task_step
  cases u.status <;> by_cases rok : env.delete_row_ok u.id <;>
    by_cases ook : env.delete_object_ok u.file_key <;> simp [rok, ook]

/-- The deletion loop never adds task rows. -/
theorem purge_task_loop_tasks_subset (env : PurgeEnv)
    (tasks : List PresignedUploadTask) (s : TenantState) :
    ∀ t ∈ ((purge_task_loop env tasks s).1).tasks, t ∈ s.tasks := by
  induction tasks generalizing s with
  | nil => intro t ht; exact ht
  | cons x rest ih =>
    intro t ht
    simp only [purge_task_loop] at ht
    have hstep := ih (purge_task_step env s x).1 t ht
    rw [purge_task_step_tasks] at hstep
    by_cases rok : env.delete_row_ok x.id
    · rw [if_pos rok] at hstep
      exact List.mem_of_mem_filter hstep
    · rwa [if_neg rok] at hstep

/-- When the row deletion of a listed task succeeds, no row with that id
survives the deletion loop. -/
theorem purge_task_loop_removes (env : PurgeEnv)
    (tasks : List PresignedUploadTask) (s : TenantState)
    (u : PresignedUploadTask) (hok : env.delete_row_ok u.id = true) :
    u ∈ tasks → ∀ t ∈ ((purge_task_loop env tasks s).1).tasks, t.id ≠ u.id := by
  induction tasks generalizing s with
  | nil => intro hu; cases hu
  | cons x rest ih =>
    intro hu t ht
    simp only [purge_task_loop] at ht
    rcases List.mem_cons.mp hu with rfl | hmem
    · have hstep := purge_task_loop_tasks_subset env rest
        (purge_task_step env s u).1 t ht
      rw [purge_task_step_tasks, if_pos hok] at hstep
      have := List.of_mem_filter hstep
      simpa using this
    · exact ih (purge_task_step env s x).1 hmem t ht

/-- C2: for every task the purge sweep finds expired as of now, the sweep
attempts the task-row deletion regardless of status, and attempts the
storage-object deletion if and only if the task's status was `Pending` or
`Failed` — a `Completed` task's storage object is never touched; any
individual deletion failure leaves the rest of the sweep intact (the action
trace is the spec's per-task trace, independent of the outcomes), and a row
whose deletion succeeded is gone from the task table. -/
theorem claim_C2_purge_expired (env : PurgeEnv) (now : Nat) (s : TenantState)
    (h : env.find_expired_ok = true) :
    ((purge_expired_presigned_tasks_tenant env now s).1).2 =
      purge_trace_spec env (find_expired s.tasks now) ∧
    (∀ t ∈ find_expired s.tasks now, env.delete_row_ok t.id = true →
      ∀ u ∈ (((purge_expired_presigned_tasks_tenant env now s).1).1).tasks,
        u.id ≠ t.id) := by
  unfold purge_expired_presigned_tasks_tenant
  by_cases he : (find_expired s.tasks now).isEmpty
  · have hnil : find_expired s.tasks now = [] := by
      simpa [List.isEmpty_iff] using he
    simp [h, he, hnil, purge_trace_spec]
  · constructor
    · simp [h, he, purge_task_loop_trace]
    · intro t ht hok u hu
      simp only [h, Bool.not_true, Bool.false_eq_true, if_false, he] at hu
      exact purge_task_loop_removes env (find_expired s.tasks now) s t hok ht u hu

/-- Witness for C2: a concrete expired `Pending` task gets its row deletion
and its storage-object deletion attempted; applies
`claim_C2_purge_expired`. -/
theorem claim_C2_purge_expired_witness :
    ((purge_expired_presigned_tasks_tenant testPurgeEnv 200 testState).1).2 =
      [.delete_row 1 true, .delete_object "abc/123".toList true] := by
  have h := (claim_C2_purge_expired testPurgeEnv 200 testState rfl).1
  rw [h]
  decide

/-! ## C1: completion is idempotent -/

/-- The predicate `find_by_file_key` filters on: the task carries the given
object key and is `Pending`. -/
def pending_key (k : List Char) (t : PresignedUploadTask) : Bool :=
  t.file_key == k && t.status.isPending

theorem find_by_file_key_eq (tasks : List PresignedUploadTask) (k : List Char) :
    find_by_file_key tasks k = tasks.find? (pending_key k) := rfl

/-- Spec invariant 1: `file_key` is unique among tasks that are concurrently
`Pending` within one tenant bucket. -/
def pending_keys_unique (tasks : List PresignedUploadTask) : Prop :=
  tasks.Pairwise (fun a b =>
    a.status.isPending = true → b.status.isPending = true →
      a.file_key ≠ b.file_key)

theorem countP_pending_le_one (tasks : List PresignedUploadTask)
    (h : pending_keys_unique tasks) (k : List Char) :
    tasks.countP (pending_key k) ≤ 1 := by
  unfold pending_keys_unique at h
  induction tasks with
  | nil => simp
  | cons t rest ih =>
    rw [List.pairwise_cons] at h
    rw [List.countP_cons]
    by_cases hp : pending_key k t = true
    · have hzero : rest.countP (pending_key k) = 0 := by
        rw [List.countP_eq_zero]
        intro b hb hpb
        have h1 := h.1 b hb
        simp only [pending_key, Bool.and_eq_true, beq_iff_eq] at hp hpb
        exact h1 hp.2 hpb.2 (hp.1.trans hpb.1.symm)
      simp [hp, hzero]
    · have := ih h.2
      rw [if_neg hp]
      omega

theorem eq_of_countP_le_one {α : Type} {p : α → Bool} :
    ∀ (l : List α), l.countP p ≤ 1 →
      ∀ a, a ∈ l → p a = true → ∀ b, b ∈ l → p b = true → a = b
  | [], _, a, ha, _, _, _, _ => absurd ha (List.not_mem_nil a)
  | x :: rest, h, a, ha, hpa, b, hb, hpb => by
    rw [List.countP_cons] at h
    rcases List.mem_cons.mp ha with rfl | hma
    · rcases List.mem_cons.mp hb with rfl | hmb
      · rfl
      · exfalso
        rw [if_pos hpa] at h
        have hz : rest.countP p = 0 := by omega
        exact absurd hpb (List.countP_eq_zero.mp hz b hmb)
    · rcases List.mem_cons.mp hb with rfl | hmb
      · exfalso
        rw [if_pos hpb] at h
        have hz : rest.countP p = 0 := by omega
        exact absurd hpa (List.countP_eq_zero.mp hz a hma)
      · have h' : rest.countP p ≤ 1 := by
          by_cases hx : p x = true
          · rw [if_pos hx] at h; omega
          · rw [if_neg hx] at h; omega
        exact eq_of_countP_le_one rest h' a hma hpa b hmb hpb

/-- Setting a terminal status on the row with the matched id leaves no
`Pending` row with the matched key, provided every `Pending` row with that
key had that id. -/
theorem countP_pending_set_status_zero (tasks : List PresignedUploadTask)
    (k : List Char) (tid : TaskId) (st : PresignedTaskStatus)
    (hst : st.isPending = false)
    (hid : ∀ t ∈ tasks, pending_key k t = true → t.id = tid) :
    (set_task_status tasks tid st).countP (pending_key k) = 0 := by
  rw [List.countP_eq_zero]
  intro x hx
  rcases List.mem_map.mp hx with ⟨t, ht, rfl⟩
  by_cases h : (t.id == tid) = true
  · rw [if_pos h]
    intro hp
    simp only [pending_key, Bool.and_eq_true] at hp
    rw [hst] at hp
    exact absurd hp.2 (by simp)
  · rw [if_neg h]
    intro hp
    exact h (by simp [hid t ht hp])

/-- Case analysis of the tenant-scoped completion handler: either it returns
the state unchanged, or every guard passed and it returns
`safe_complete_presigned` of the matched `Pending` task. -/
theorem handle_tenant_result (env : CompletionEnv) (t : Tenant)
    (s : TenantState) (k : List Char) :
    (handle_file_uploaded_tenant env t s k).1 = s ∨
    ∃ decoded task,
      env.decode k = some decoded ∧
      env.tenant_pool_ok = true ∧
      env.task_query_ok = true ∧
      find_by_file_key s.tasks decoded = some task ∧
      env.folder_query_ok = true ∧
      (task.document_box, task.folder_id) ∈ s.folders ∧
      (handle_file_uploaded_tenant env t s k).1 =
        safe_complete_presigned env s task := by
  cases hdec : env.decode k with
  | none => left; simp [handle_file_uploaded_tenant, hdec]
  | some decoded =>
    cases hpool : env.tenant_pool_ok with
    | false => left; simp [handle_file_uploaded_tenant, hdec, hpool]
    | true =>
      cases hq : env.task_query_ok with
      | false => left; simp [handle_file_uploaded_tenant, hdec, hpool, hq]
      | true =>
        cases hfind : find_by_file_key s.tasks decoded with
        | none =>
          left; simp [handle_file_uploaded_tenant, hdec, hpool, hq, hfind]
        | some task =>
          cases hfq : env.folder_query_ok with
          | false =>
            left
            simp [handle_file_uploaded_tenant, hdec, hpool, hq, hfind, hfq]
          | true =>
            by_cases hfold :
                (task.document_box, task.folder_id) ∈ s.folders
            · right
              refine ⟨decoded, task, rfl, rfl, rfl, hfind, rfl, hfold, ?_⟩
              simp [handle_file_uploaded_tenant, hdec, hpool, hq, hfind, hfq,
                hfold]
            · left
              simp [handle_file_uploaded_tenant, hdec, hpool, hq, hfind, hfq,
                hfold]

/-- The tenant-scoped completion handler is idempotent under spec
invariant 1. -/
theorem handle_tenant_idempotent (env : CompletionEnv) (t : Tenant)
    (s : TenantState) (k : List Char) (hu : pending_keys_unique s.tasks) :
    (handle_file_uploaded_tenant env t
        ((handle_file_uploaded_tenant env t s k).1) k).1 =
      (handle_file_uploaded_tenant env t s k).1 := by
  rcases handle_tenant_result env t s k with heq |
    ⟨decoded, task, hdec, hpool, hq, hfind, hfq, hfold, heq⟩
  · rw [heq]; exact heq
  · have hfind' : s.tasks.find? (pending_key decoded) = some task := by
      rw [← find_by_file_key_eq]; exact hfind
    have htmem : task ∈ s.tasks := List.mem_of_find?_eq_some hfind'
    have hptask : pending_key decoded task = true := List.find?_some hfind'
    have hid : ∀ x ∈ s.tasks, pending_key decoded x = true →
        x.id = task.id := by
      intro x hx hpx
      have := eq_of_countP_le_one s.tasks
        (countP_pending_le_one s.tasks hu decoded) x hx hpx task htmem hptask
      rw [this]
    have hterm : ∀ st : PresignedTaskStatus, st.isPending = false →
        find_by_file_key (set_task_status s.tasks task.id st) decoded =
          none := by
      intro st hst
      rw [find_by_file_key_eq, List.find?_eq_none]
      intro x hx
      have h0 := countP_pending_set_status_zero s.tasks decoded task.id st
        hst hid
      exact List.countP_eq_zero.mp h0 x hx
    rw [heq]
    rcases hpip : env.pipeline task with e | fid
    · have hn := hterm (.failed e) rfl
      simp [handle_file_uploaded_tenant, hdec, hpool, hq,
        safe_complete_presigned, hpip, hn]
    · have hn := hterm (.completed fid) rfl
      simp [handle_file_uploaded_tenant, hdec, hpool, hq,
        safe_complete_presigned, hpip, hn]

/-- Case analysis of the outer completion handler: either it returns the
state unchanged, or it resolved a tenant and returned the tenant-scoped
handler's result. -/
theorem handle_uploaded_result (env : CompletionEnv) (s : TenantState)
    (b k : List Char) :
    (handle_file_uploaded env s b k).1 = s ∨
    ∃ t,
      env.root_pool_ok = true ∧
      env.bucket_query_ok = true ∧
      Tenant.find_by_bucket env.tenants b = some t ∧
      (handle_file_uploaded env s b k).1 =
        (handle_file_uploaded_tenant env t s k).1 := by
  cases hroot : env.root_pool_ok with
  | false => left; simp [handle_file_uploaded, hroot]
  | true =>
    cases hq : env.bucket_query_ok with
    | false => left; simp [handle_file_uploaded, hroot, hq]
    | true =>
      cases hfind : Tenant.find_by_bucket env.tenants b with
      | none => left; simp [handle_file_uploaded, hroot, hq, hfind]
      | some t =>
        right
        refine ⟨t, rfl, rfl, rfl, ?_⟩
        simp [handle_file_uploaded, hroot, hq, hfind]

/-- C1: under spec invariant 1 (object keys unique among concurrently
`Pending` tasks), `complete()` transitions a task out of `Pending` at most
once: running the completion handler a second time with the same bucket and
object key after a first run finds no `Pending` task, performs no mutation —
the state, in particular the task statuses and the `File` table, is exactly
the state after the first run — so no duplicate `File` is ever created. -/
theorem claim_C1_complete_idempotent (env : CompletionEnv) (s : TenantState)
    (b k : List Char) (hu : pending_keys_unique s.tasks) :
    (handle_file_uploaded env ((handle_file_uploaded env s b k).1) b k).1 =
      (handle_file_uploaded env s b k).1 := by
  rcases handle_uploaded_result env s b k with heq |
    ⟨t, hroot, hq, hfind, heq⟩
  · rw [heq]; exact heq
  · have houter : ∀ s' : TenantState,
        (handle_file_uploaded env s' b k).1 =
          (handle_file_uploaded_tenant env t s' k).1 := by
      intro s'
      simp [handle_file_uploaded, hroot, hq, hfind]
    rw [heq, houter]
    exact handle_tenant_idempotent env t s k hu

/-- Witness for C1: a concrete first completion transitions the single
`Pending` task and creates its file; a second run with the same key changes
nothing; applies `claim_C1_complete_idempotent`. -/
theorem claim_C1_complete_idempotent_witness :
    pending_keys_unique testState.tasks ∧
    (handle_file_uploaded testCompletionEnv
        ((handle_file_uploaded testCompletionEnv testState "bucket".toList
          "abc/123".toList).1) "bucket".toList "abc/123".toList).1 =
      (handle_file_uploaded testCompletionEnv testState "bucket".toList
        "abc/123".toList).1 :=
  ⟨by simp [pending_keys_unique, testState, testTask],
   claim_C1_complete_idempotent testCompletionEnv testState "bucket".toList
     "abc/123".toList (by simp [pending_keys_unique, testState, testTask])⟩

/-! ## C8: complete() and purge_expired() on the same expiring task
Interleavings are modelled at operation granularity: the two operations
applied to the shared durable state in either order. The claim's "exactly one
of them mutates the row" fails in the complete-first order, because
`find_expired` matches rows regardless of status, so the purge still deletes
the now-terminal, still-expired row. -/

/-- Counterexample to C8: on a single expiring `Pending` task, running
`complete()` first and `purge_expired()` second makes both operations mutate
the row — `complete()` transitions it to `Completed` and the purge, whose
expiry query matches terminal rows too, then deletes it — refuting "exactly
one of them mutates the row: ... the other ... performs no mutation". -/
theorem claim_C8_counterexample :
    testTask.status = .pending ∧ testTask.expires_at < 200 ∧
    (handle_file_uploaded testCompletionEnv testState "bucket".toList
        "abc/123".toList).1 ≠ testState ∧
    (((purge_expired_presigned_tasks_tenant testPurgeEnv 200
        ((handle_file_uploaded testCompletionEnv testState "bucket".toList
          "abc/123".toList).1)).1).1) ≠
      (handle_file_uploaded testCompletionEnv testState "bucket".toList
        "abc/123".toList).1 := by
  refine ⟨rfl, by decide, ?_, ?_⟩ <;> decide

theorem set_task_status_id (t : PresignedUploadTask) (tid : TaskId)
    (st : PresignedTaskStatus) :
    (if (t.id == tid) = true then { t with status := st } else t).id = t.id := by
  by_cases h : (t.id == tid) = true <;> simp [h]

/-- One tenant's purge never adds task rows. -/
theorem purge_tenant_tasks_subset (penv : PurgeEnv) (now : Nat)
    (s : TenantState) :
    ∀ u ∈ (((purge_expired_presigned_tasks_tenant penv now s).1).1).tasks,
      u ∈ s.tasks := by
  unfold purge_expired_presigned_tasks_tenant
  cases hfe : penv.find_expired_ok with
  | false => simp
  | true =>
    by_cases he : (find_expired s.tasks now).isEmpty
    · simp [he]
    · simp only [he, Bool.not_true, Bool.false_eq_true, if_false]
      exact purge_task_loop_tasks_subset penv (find_expired s.tasks now) s

/-- Purging a state whose task table is a single expired task empties the
task table, when the row deletion succeeds. -/
theorem purge_single_empties (penv : PurgeEnv) (now : Nat) (s : TenantState)
    (t : PresignedUploadTask) (h1 : s.tasks = [t]) (h3 : t.expires_at < now)
    (h4 : penv.find_expired_ok = true) (h5 : penv.delete_row_ok t.id = true) :
    (((purge_expired_presigned_tasks_tenant penv now s).1).1).tasks = [] := by
  have hexp : find_expired s.tasks now = [t] := by
    simp [find_expired, h1, h3]
  unfold purge_expired_presigned_tasks_tenant
  rw [h4, hexp]
  simp only [List.isEmpty_cons, Bool.not_true, Bool.false_eq_true, if_false,
    purge_task_loop]
  rw [purge_task_step_tasks, if_pos h5, h1]
  simp

/-- A purge step on a `Completed` task never touches the storage objects. -/
theorem purge_task_step_storage_completed (env : PurgeEnv) (s : TenantState)
    (u : PresignedUploadTask) (fid : FileId)
    (h : u.status = .completed fid) :
    ((purge_task_step env s u).1).storage_objects = s.storage_objects := by
  unfold purge_task_step
  rw [h]
  by_cases rok : env.delete_row_ok u.id = true <;> simp [rok]

/-- C8 as amended: with the two operations interleaved atomically on a sole
expiring `Pending` task, the purge-first order leaves `complete()` with no
matching `Pending` task and no mutation; the complete-first order transitions
the task to `Completed{file_id}`, after which the purge — whose expiry query
matches rows regardless of status — still deletes the expired row, but never
deletes the storage object of the `Completed` task; and neither operation
ever creates a task row with an id it did not find. -/
theorem claim_C8_race_interleavings (cenv : CompletionEnv) (penv : PurgeEnv)
    (now : Nat) (s : TenantState) (t : PresignedUploadTask) (tn : Tenant)
    (b k : List Char) (fid : FileId)
    (h1 : s.tasks = [t]) (h2 : t.status = .pending) (h3 : t.expires_at < now)
    (h4 : penv.find_expired_ok = true) (h5 : penv.delete_row_ok t.id = true)
    (hc1 : cenv.root_pool_ok = true) (hc2 : cenv.bucket_query_ok = true)
    (hc3 : Tenant.find_by_bucket cenv.tenants b = some tn)
    (hc4 : cenv.decode k = some t.file_key)
    (hc5 : cenv.tenant_pool_ok = true) (hc6 : cenv.task_query_ok = true)
    (hc7 : cenv.folder_query_ok = true)
    (hc8 : (t.document_box, t.folder_id) ∈ s.folders)
    (hc9 : cenv.pipeline t = .ok fid) :
    ((handle_file_uploaded cenv
        (((purge_expired_presigned_tasks_tenant penv now s).1).1) b k).1 =
      (((purge_expired_presigned_tasks_tenant penv now s).1).1)) ∧
    (((handle_file_uploaded cenv s b k).1).tasks =
        [{ t with status := .completed fid }] ∧
      (((purge_expired_presigned_tasks_tenant penv now
          ((handle_file_uploaded cenv s b k).1)).1).1).storage_objects =
        ((handle_file_uploaded cenv s b k).1).storage_objects ∧
      (((purge_expired_presigned_tasks_tenant penv now
          ((handle_file_uploaded cenv s b k).1)).1).1).tasks = []) ∧
    (∀ s' : TenantState,
      ∀ u ∈ ((handle_file_uploaded cenv s' b k).1).tasks,
        u.id ∈ s'.tasks.map (fun v => v.id)) ∧
    (∀ s' : TenantState,
      ∀ u ∈ (((purge_expired_presigned_tasks_tenant penv now s').1).1).tasks,
        u.id ∈ s'.tasks.map (fun v => v.id)) := by
  have hempty := purge_single_empties penv now s t h1 h3 h4 h5
  have hfind : find_by_file_key s.tasks t.file_key = some t := by
    rw [find_by_file_key_eq, h1]
    simp [pending_key, h2, PresignedTaskStatus.isPending]
  have hsc : (handle_file_uploaded cenv s b k).1 =
      safe_complete_presigned cenv s t := by
    simp [handle_file_uploaded, hc1, hc2, hc3, handle_file_uploaded_tenant,
      hc4, hc5, hc6, hfind, hc7, hc8]
  have hsafe : safe_complete_presigned cenv s t =
      { s with
        tasks := set_task_status s.tasks t.id (.completed fid)
        files := ⟨fid, t.id⟩ :: s.files } := by
    simp [safe_complete_presigned, hc9]
  have hsctasks : ((handle_file_uploaded cenv s b k).1).tasks =
      [{ t with status := .completed fid }] := by
    rw [hsc, hsafe]
    simp [set_task_status, h1]
  refine ⟨?_, ⟨hsctasks, ?_, ?_⟩, ?_, ?_⟩
  · -- purge-first: the task table is empty, so complete() mutates nothing
    rcases handle_uploaded_result cenv
        (((purge_expired_presigned_tasks_tenant penv now s).1).1) b k with
      heq | ⟨tn', _, _, _, heq⟩
    · exact heq
    · rcases handle_tenant_result cenv tn'
          (((purge_expired_presigned_tasks_tenant penv now s).1).1) k with
        heq2 | ⟨d, task, _, _, _, hfind2, _, _, _⟩
      · rw [heq]; exact heq2
      · rw [hempty] at hfind2
        simp [find_by_file_key] at hfind2
  · -- complete-first: the purge leaves the storage objects alone
    have hexp : find_expired ((handle_file_uploaded cenv s b k).1).tasks now =
        [{ t with status := .completed fid }] := by
      rw [hsctasks]
      simp [find_expired, h3]
    unfold purge_expired_presigned_tasks_tenant
    rw [h4, hexp]
    simp only [List.isEmpty_cons, Bool.not_true, Bool.false_eq_true, if_false,
      purge_task_loop]
    exact purge_task_step_storage_completed penv _ _ fid rfl
  · -- complete-first: the purge still deletes the expired, terminal row
    have hexp : find_expired ((handle_file_uploaded cenv s b k).1).tasks now =
        [{ t with status := .completed fid }] := by
      rw [hsctasks]
      simp [find_expired, h3]
    unfold purge_expired_presigned_tasks_tenant
    rw [h4, hexp]
    simp only [List.isEmpty_cons, Bool.not_true, Bool.false_eq_true, if_false,
      purge_task_loop]
    rw [purge_task_step_tasks, if_pos h5, hsctasks]
    simp
  · -- complete() never creates a row with a new id
    intro s' u hu
    rcases handle_uploaded_result cenv s' b k with heq | ⟨tn', _, _, _, heq⟩
    · rw [heq] at hu
      exact List.mem_map.mpr ⟨u, hu, rfl⟩
    · rcases handle_tenant_result cenv tn' s' k with
        heq2 | ⟨d, task, _, _, _, _, _, _, heq2⟩
      · rw [heq, heq2] at hu
        exact List.mem_map.mpr ⟨u, hu, rfl⟩
      · rw [heq, heq2] at hu
        unfold safe_complete_presigned at hu
        rcases hpip : cenv.pipeline task with e | fid'
        all_goals rw [hpip] at hu
        all_goals simp only [] at hu
        all_goals rcases List.mem_map.mp hu with ⟨v, hv, rfl⟩
        all_goals exact List.mem_map.mpr ⟨v, hv, (set_task_status_id v task.id _).symm ▸ rfl⟩
  · -- purge_expired() never creates a row with a new id
    intro s' u hu
    have := purge_tenant_tasks_subset penv now s' u hu
    exact List.mem_map.mpr ⟨u, this, rfl⟩

/-- Witness for the amended C8 at the concrete fixture; applies
`claim_C8_race_interleavings`. -/
theorem claim_C8_race_interleavings_witness :
    (handle_file_uploaded testCompletionEnv
        (((purge_expired_presigned_tasks_tenant testPurgeEnv 200
          testState).1).1) "bucket".toList "abc/123".toList).1 =
      (((purge_expired_presigned_tasks_tenant testPurgeEnv 200
        testState).1).1) :=
  (claim_C8_race_interleavings testCompletionEnv testPurgeEnv 200 testState
    testTask testTenant "bucket".toList "abc/123".toList 42
    rfl rfl (by decide) rfl rfl rfl rfl rfl rfl rfl rfl rfl (by decide)
    rfl).1

end Docbox
